import Mathlib

/-!
Verification of the pySPIRALTAP solver (`pySPIRALTAP.py`) against its
natural-language specification.

The numeric code is shallowly embedded over `ℚ`: numpy vectors become
`List ℚ`, elementwise numpy operations become `List.zipWith` / `List.map`,
and Python exceptions become `Except`.  `np.log` has no rational analogue,
so functions that use it take an abstract `rlog : ℚ → ℚ` parameter; no
claim below depends on the value of `rlog`.  Likewise `np.sqrt(y)` is the
precomputed vector `sqrty` (source line 376), passed around as data exactly
as the source does.
-/

/-- Sum of a rational vector, `v.sum()` in numpy. -/
def vsum (v : List ℚ) : ℚ := v.sum

/-- Elementwise difference `a - b` of two numpy vectors. -/
def vsub (a b : List ℚ) : List ℚ := List.zipWith (fun u v => u - v) a b

/-- Elementwise sum of squares `(v**2).sum()`. -/
def sumsq (v : List ℚ) : ℚ := vsum (v.map (fun d => d * d))

/-- The two supported noise models (source accepts only these two strings). -/
inductive Noise
  | poisson
  | gaussian
deriving DecidableEq

/-- The five penalty names accepted by the argument validation. -/
inductive Penalty
  | canonical
  | onb
  | rdp
  | rdpti
  | tv
deriving DecidableEq

/-- Python exceptions raised by the embedded code. -/
inductive PyErr
  | attributeError
  | typeError
  | valueError
  | notImplementedError
deriving DecidableEq

/-- `computegrad` (source lines 122-129): gradient of the negative
log-likelihood.  Poisson: `AT(1 - y/(Ax + logepsilon))`; Gaussian:
`AT(Ax - y)`. -/
def computegrad (y Ax : List ℚ) (AT : List ℚ → List ℚ) (noisetype : Noise)
    (logepsilon : ℚ) : List ℚ :=
  match noisetype with
  | Noise.poisson => AT (List.zipWith (fun yi axi => 1 - yi / (axi + logepsilon)) y Ax)
  | Noise.gaussian => AT (vsub Ax y)

/-- `computeobjective` (source lines 131-152).  The data-fit term follows the
source exactly.  The penalty dispatch in the source is written
`if penalty.lower=='canonical':` (and likewise for the other cases): it
compares the *unapplied* bound method `penalty.lower` with a string, which is
always `False` in Python, so none of the penalty branches ever executes and
the returned value is the data-fit term alone.  The embedding reproduces
that: the `penalty` argument is accepted but—as in the source—has no effect
on the result. -/
def computeobjective (rlog : ℚ → ℚ) (x y Ax : List ℚ) (tau : ℚ)
    (noisetype : Noise) (logepsilon : ℚ) (penalty : Penalty) : ℚ :=
  let _ := x
  let _ := tau
  let _ := penalty
  match noisetype with
  | Noise.poisson =>
      vsum Ax - vsum (List.zipWith (fun yi axi => yi * rlog (axi + logepsilon)) y Ax)
  | Noise.gaussian => sumsq (vsub y Ax) / 2

/-- Modelled from the spec (section 4.3): the objective the specification
describes, namely the data-fit term plus, for the canonical penalty, the
term `sum(|tau*x|)`.  Kept separate from `computeobjective` (the source
function) so the two can be compared. -/
def specObjective (rlog : ℚ → ℚ) (x y Ax : List ℚ) (tau : ℚ)
    (noisetype : Noise) (logepsilon : ℚ) : ℚ :=
  let datafit :=
    match noisetype with
    | Noise.poisson =>
        vsum Ax - vsum (List.zipWith (fun yi axi => yi * rlog (axi + logepsilon)) y Ax)
    | Noise.gaussian => sumsq (vsub y Ax) / 2
  datafit + vsum (x.map (fun xi => |tau * xi|))

/-- The canonical branch of `computesubsolution` (source lines 160-163):
`out = step - tau/alpha + mu; out[out<0] = 0`. -/
def canonicalSub (step : List ℚ) (tau alpha mu : ℚ) : List ℚ :=
  let out := step.map (fun s => s - tau / alpha + mu)
  out.map (fun v => if v < 0 then 0 else v)

/-- `computesubsolution` (source lines 157-166).  Only the canonical penalty
is implemented; every other penalty calls `todo()`, which raises
`NotImplementedError`.  The sub-iteration parameters of the source signature
(`W, WT, subminiter, submaxiter, substopcriterion, subtolerance`) are
consumed only by the unimplemented branches and are omitted here. -/
def computesubsolution (step : List ℚ) (tau alpha : ℚ) (penalty : Penalty)
    (mu : ℚ) : Except PyErr (List ℚ) :=
  match penalty with
  | Penalty.canonical => Except.ok (canonicalSub step tau alpha mu)
  | _ => Except.error PyErr.notImplementedError

/-- `checkconvergence` (source lines 205-221).  `converged` starts at 0 and
is only (possibly) changed when `itern >= miniter`.  Criteria 5 and 6 call
`todo()` (raising `NotImplementedError`); any other unrecognized criterion
value leaves `converged = 0`, which is returned silently. -/
def checkconvergence (itern miniter : ℕ) (stopcriterion : ℤ) (tolerance : ℚ)
    (dx x : List ℚ) (cputime : ℚ) (objective : List ℚ) : Except PyErr Bool :=
  if itern ≥ miniter then
    if stopcriterion = 1 then Except.ok false
    else if stopcriterion = 2 then Except.ok (decide (cputime ≥ tolerance))
    else if stopcriterion = 3 then
      Except.ok (decide ((vsum dx) ^ 2 / (vsum x) ^ 2 ≤ tolerance ^ 2))
    else if stopcriterion = 4 then
      Except.ok (decide
        (|objective.getD itern 0 - objective.getD (itern - 1) 0| /
          |objective.getD (itern - 1) 0| ≤ tolerance))
    else if stopcriterion = 5 then Except.error PyErr.notImplementedError
    else if stopcriterion = 6 then Except.error PyErr.notImplementedError
    else Except.ok false
  else Except.ok false

/-- The objective-window index range used by the monotone acceptance test
(source line 558): `np.arange(max(itern-1-acceptpast, 0), itern)`.  Natural
subtraction `itern - 1 - acceptpast` truncates at 0 exactly like the
`max(..., 0)` in the source. -/
def pastWindow (itern acceptpast : ℕ) : List ℕ :=
  let lo := itern - 1 - acceptpast
  List.range' lo (itern - lo)

/-- `np.max` over a nonempty list of rationals. -/
def npListMax (l : List ℚ) : ℚ := l.foldl max (l.headD 0)

/-- `maxpastobjective` (source lines 558-559): the maximum of
`objective[past]` where `past = arange(max(itern-1-acceptpast,0), itern)`. -/
def maxpastobjective (itern acceptpast : ℕ) (objective : List ℚ) : ℚ :=
  npListMax ((pastWindow itern acceptpast).map (fun i => objective.getD i 0))

/-- Modelled from the spec's words in claim C1, for comparison with the
source's window: the maximum objective over the last
`min(itern-1, acceptpast)` iterations, i.e. over the objective entries at
indices `itern - m, ..., itern - 1` with `m = min (itern-1) acceptpast`. -/
def specPastMax (itern acceptpast : ℕ) (objective : List ℚ) : ℚ :=
  let m := min (itern - 1) acceptpast
  npListMax ((List.range' (itern - m) m).map (fun i => objective.getD i 0))

/-- The acceptance test of the monotone backtracking loop (source line 576):
accept when `objective[itern] <= maxpastobjective - acceptdecrease*alpha/2*normsqdx`
or when `alpha >= acceptalphamax`. -/
def acceptTest (objCand maxpastobj acceptdecrease alpha normsqdx acceptalphamax : ℚ) :
    Bool :=
  decide (objCand ≤ maxpastobj - acceptdecrease * alpha / 2 * normsqdx) ||
    decide (alpha ≥ acceptalphamax)

/-- The per-round data of the monotone backtracking loop (source lines
561-579): everything the loop body recomputes at a given trial `alpha`. -/
structure BTResult where
  x : List ℚ
  dx : List ℚ
  Ax : List ℚ
  Adx : List ℚ
  normsqdx : ℚ
  objItern : ℚ
  acceptalpha : ℚ
  alpha : ℚ
deriving DecidableEq

/-- The loop-invariant context of one monotone backtracking search: the
quantities that do not change between backtracking rounds (source lines
557-579).  `maxpastobj` is computed once before the `while accept==0` loop. -/
structure BTCtx where
  A : List ℚ → List ℚ
  xprevious : List ℚ
  Axprevious : List ℚ
  grad : List ℚ
  y : List ℚ
  tau : ℚ
  mu : ℚ
  logepsilon : ℚ
  noisetype : Noise
  rlog : ℚ → ℚ
  acceptdecrease : ℚ
  acceptmult : ℚ
  acceptalphamax : ℚ
  maxpastobj : ℚ

/-- One round of the backtracking loop body at trial step size `alpha`
(source lines 562-575): gradient step, canonical denoising subproblem,
`dx`, `Ax`, `Adx`, `||dx||^2` and the candidate objective.  On both accepted
and rejected rounds the source then sets `acceptalpha = alpha` and
`alpha = acceptmult*alpha` (lines 578-579), recorded here in the last two
fields. -/
def btCandidate (c : BTCtx) (alpha : ℚ) : BTResult :=
  let step := List.zipWith (fun xi gi => xi - gi / alpha) c.xprevious c.grad
  let x := canonicalSub step c.tau alpha c.mu
  let dx := vsub x c.xprevious
  let Ax := c.A x
  let Adx := vsub Ax c.Axprevious
  let normsqdx := sumsq dx
  let objItern :=
    computeobjective c.rlog x c.y Ax c.tau c.noisetype c.logepsilon Penalty.canonical
  ⟨x, dx, Ax, Adx, normsqdx, objItern, alpha, c.acceptmult * alpha⟩

/-- Whether the round at trial step size `alpha` is accepted (source line
576). -/
def btAccepts (c : BTCtx) (alpha : ℚ) : Bool :=
  let r := btCandidate c alpha
  acceptTest r.objItern c.maxpastobj c.acceptdecrease alpha r.normsqdx c.acceptalphamax

/-- The `while accept==0` backtracking loop (source lines 560-579), with
explicit fuel.  The source loop runs until acceptance, which (for
`acceptmult > 1`, `alpha > 0`) is guaranteed because `alpha` eventually
reaches `acceptalphamax`; fuel exhaustion returns `none` and is never hit in
the concrete runs below. -/
def backtrack (c : BTCtx) : ℕ → ℚ → Option BTResult
  | 0, _ => none
  | fuel + 1, alpha =>
      if btAccepts c alpha then some (btCandidate c alpha)
      else backtrack c fuel (c.acceptmult * alpha)

/-- The scaling of `Adx` used by the BB curvature estimate (source lines
631-634): for Poisson noise `Adx*sqrty/(Ax + logepsilon)`, for Gaussian
noise `Adx` unchanged. -/
def bbScaledAdx (noisetype : Noise) (Adx sqrty Ax : List ℚ) (logepsilon : ℚ) :
    List ℚ :=
  match noisetype with
  | Noise.poisson =>
      List.zipWith (fun p axi => p / (axi + logepsilon))
        (List.zipWith (fun a s => a * s) Adx sqrty) Ax
  | Noise.gaussian => Adx

/-- `gamma = (Adx**2).sum()` after the noise-dependent scaling (source line
635). -/
def bbGamma (noisetype : Noise) (Adx sqrty Ax : List ℚ) (logepsilon : ℚ) : ℚ :=
  sumsq (bbScaledAdx noisetype Adx sqrty Ax logepsilon)

/-- The BB step-size update (source lines 629-640): if `gamma == 0` fall
back to `alphamin`, otherwise `alpha = min(alphamax, max(gamma/normsqdx, alphamin))`. -/
def bbNextAlpha (noisetype : Noise) (Adx sqrty Ax : List ℚ)
    (logepsilon normsqdx alphamin alphamax : ℚ) : ℚ :=
  let gamma := bbGamma noisetype Adx sqrty Ax logepsilon
  if gamma = 0 then alphamin
  else min alphamax (max (gamma / normsqdx) alphamin)

/-- Modelled from the spec's words (section 4.4): `clamp(alphamin, alphamax, v)`. -/
def clampSpec (lo hi v : ℚ) : ℚ := min hi (max v lo)

/-- Modelled from the spec's words (section 4.4): `Adx_scaled` is `Adx` for
Gaussian noise and `Adx * sqrt(y) / (Ax + epsilon)` for Poisson noise, with
`sqrt(y)` supplied as the precomputed vector `sqrty`.  Written independently
of `bbScaledAdx` (zip-then-map rather than nested zipWith). -/
def specAdxScaled (noisetype : Noise) (Adx sqrty Ax : List ℚ) (logepsilon : ℚ) :
    List ℚ :=
  match noisetype with
  | Noise.poisson =>
      (Adx.zip (sqrty.zip Ax)).map (fun p => p.1 * p.2.1 / (p.2.2 + logepsilon))
  | Noise.gaussian => Adx

/-- Modelled from the spec's words (section 4.4): `gamma = sum(Adx_scaled^2)`. -/
def specGamma (noisetype : Noise) (Adx sqrty Ax : List ℚ) (logepsilon : ℚ) : ℚ :=
  sumsq (specAdxScaled noisetype Adx sqrty Ax logepsilon)

/-- The mutable per-iteration state of the main algorithm loop (source lines
497-508 for the initialization, 546-645 for the loop). -/
structure DriverState where
  x : List ℚ
  xprevious : List ℚ
  Ax : List ℚ
  Axprevious : List ℚ
  grad : List ℚ
  alpha : ℚ
  objective : List ℚ
  cputime : List ℚ
  reconerror : List ℚ
deriving DecidableEq

/-- The configuration of one `SPIRALTAP` invocation, restricted to the
options exercised by the claims: `alphamethod=1` (Barzilai-Borwein) with
`monotone=1` and the canonical penalty.  `elapsed itern` models the wall
clock reading `time.time()-tic` observed at iteration `itern`, and `reconf`
models the `computereconerror` closure (source lines 514-519). -/
structure DriverCfg where
  A : List ℚ → List ℚ
  AT : List ℚ → List ℚ
  y : List ℚ
  sqrty : List ℚ
  tau : ℚ
  mu : ℚ
  logepsilon : ℚ
  noisetype : Noise
  rlog : ℚ → ℚ
  alphainit : ℚ
  alphamin : ℚ
  alphamax : ℚ
  acceptdecrease : ℚ
  acceptpast : ℕ
  acceptmult : ℚ
  acceptalphamax : ℚ
  stopcriterion : ℤ
  tolerance : ℚ
  miniter : ℕ
  maxiter : ℕ
  saveobjective : Bool
  savecputime : Bool
  savereconerror : Bool
  elapsed : ℕ → ℚ
  reconf : List ℚ → ℚ
  btFuel : ℕ

/-- Initialization of the main algorithm (source lines 497-520): `x = xinit`,
`Ax = A(x)`, `alpha = alphainit`, previous values equal to current, the
gradient from `computegrad`, and the trace arrays preallocated as
`np.zeros(maxiter+1)`; `objective[0]` (resp. `reconerror[0]`) is written only
when the corresponding save flag is set (`itern` starts at 1, so
`objective[itern-1]` is index 0). -/
def initState (cfg : DriverCfg) (xinit : List ℚ) : DriverState :=
  let x := xinit
  let Ax := cfg.A x
  let zeros := List.replicate (cfg.maxiter + 1) (0 : ℚ)
  { x := x
    xprevious := x
    Ax := Ax
    Axprevious := Ax
    grad := computegrad cfg.y Ax cfg.AT cfg.noisetype cfg.logepsilon
    alpha := cfg.alphainit
    objective :=
      if cfg.saveobjective then
        zeros.set 0 (computeobjective cfg.rlog x cfg.y Ax cfg.tau cfg.noisetype
          cfg.logepsilon Penalty.canonical)
      else zeros
    cputime := zeros
    reconerror :=
      if cfg.savereconerror then zeros.set 0 (cfg.reconf x) else zeros }

/-- The backtracking context assembled by the monotone branch at iteration
`itern` (source lines 557-559). -/
def mkBTCtx (cfg : DriverCfg) (itern : ℕ) (s : DriverState) : BTCtx :=
  { A := cfg.A
    xprevious := s.xprevious
    Axprevious := s.Axprevious
    grad := s.grad
    y := cfg.y
    tau := cfg.tau
    mu := cfg.mu
    logepsilon := cfg.logepsilon
    noisetype := cfg.noisetype
    rlog := cfg.rlog
    acceptdecrease := cfg.acceptdecrease
    acceptmult := cfg.acceptmult
    acceptalphamax := cfg.acceptalphamax
    maxpastobj := maxpastobjective itern cfg.acceptpast s.objective }

/-- One iteration of the main loop body for `alphamethod == 1` with
`monotone` set (source lines 556-644): monotone backtracking, the
unconditional write of `objective[itern]` (line 574, inside the backtracking
loop, not guarded by `saveobjective`), the optional `cputime`/`reconerror`
writes, gradient recomputation, convergence check and BB step-size update,
then rolling `x`, `Ax` into the previous slots.  Criteria 5 and 6 make
`checkconvergence` raise in the source, aborting the run; the driver is
modelled for the implemented criteria (1-4), where `checkconvergence` always
returns a value, and defaults to `false` otherwise.  If the backtracking
fuel runs out (never the case below) the state is returned unchanged. -/
def monotoneBody (cfg : DriverCfg) (itern : ℕ) (s : DriverState) :
    DriverState × Bool :=
  match backtrack (mkBTCtx cfg itern s) cfg.btFuel s.alpha with
  | none => (s, false)
  | some r =>
      let objective := s.objective.set itern r.objItern
      let cputime :=
        if cfg.savecputime then s.cputime.set itern (cfg.elapsed itern) else s.cputime
      let reconerror :=
        if cfg.savereconerror then s.reconerror.set itern (cfg.reconf r.x)
        else s.reconerror
      let grad := computegrad cfg.y r.Ax cfg.AT cfg.noisetype cfg.logepsilon
      let converged :=
        (checkconvergence itern cfg.miniter cfg.stopcriterion cfg.tolerance r.dx r.x
            (cputime.getD itern 0) objective).toOption.getD false
      let alpha := bbNextAlpha cfg.noisetype r.Adx cfg.sqrty r.Ax cfg.logepsilon
        r.normsqdx cfg.alphamin cfg.alphamax
      ({ x := r.x
         xprevious := r.x
         Ax := r.Ax
         Axprevious := r.Ax
         grad := grad
         alpha := alpha
         objective := objective
         cputime := cputime
         reconerror := reconerror }, converged)

/-- The main algorithm loop (source line 546):
`while (itern <= miniter) or ((itern <= maxiter) and not converged)`.
Generic in the loop body; `body itern s` returns the new state together with
the new value of `converged`, and `itern` is incremented at the end of each
iteration (line 645).  The explicit fuel only serves Lean's termination
checker: with `fuel = maxiter + 1` and the initial `itern = 1` it never runs
out when `miniter ≤ maxiter`. -/
def runLoop {σ : Type} (body : ℕ → σ → σ × Bool) (miniter maxiter : ℕ) :
    ℕ → ℕ → Bool → σ → ℕ × σ
  | 0, itern, _, s => (itern, s)
  | fuel + 1, itern, converged, s =>
      if itern ≤ miniter ∨ (itern ≤ maxiter ∧ converged = false) then
        runLoop body miniter maxiter fuel (itern + 1) (body itern s).2 (body itern s).1
      else (itern, s)

/-- The iteration count returned by `SPIRALTAP` (source lines 655-658): the
loop starts at `itern = 1`, `converged = 0`, and the exit value of `itern`
is decremented by 1 before being reported. -/
def spiralIterations {σ : Type} (body : ℕ → σ → σ × Bool) (miniter maxiter : ℕ)
    (s : σ) : ℕ :=
  (runLoop body miniter maxiter (maxiter + 1) 1 false s).1 - 1

/-- The result surface of `SPIRALTAP` (source lines 650-671): the final
signal (with the recentering offset `mu` added back) plus the iteration
count and the enabled traces, each truncated as `trace[0:itern]`. -/
structure SpiralOutput where
  x : List ℚ
  iterations : ℕ
  objectiveTrace : Option (List ℚ)
  cputimeTrace : Option (List ℚ)
  reconerrorTrace : Option (List ℚ)
deriving DecidableEq

/-- The output post-processing (source lines 650-671): `x = x + mu`,
`itern = itern - 1`, and each enabled trace is truncated to `trace[0:itern]`
(a Python slice of length `itern` when `itern` is at most the array length). -/
def assembleOutput (cfg : DriverCfg) (iternExit : ℕ) (s : DriverState) :
    SpiralOutput :=
  let itern := iternExit - 1
  { x := s.x.map (fun v => v + cfg.mu)
    iterations := itern
    objectiveTrace := if cfg.saveobjective then some (s.objective.take itern) else none
    cputimeTrace := if cfg.savecputime then some (s.cputime.take itern) else none
    reconerrorTrace :=
      if cfg.savereconerror then some (s.reconerror.take itern) else none }

/-- A full `SPIRALTAP` run with `alphamethod=1`, `monotone=1` and the
canonical penalty: initialization, main loop, output assembly. -/
def SPIRALTAPexec (cfg : DriverCfg) (xinit : List ℚ) : SpiralOutput :=
  let s0 := initState cfg xinit
  let res := runLoop (monotoneBody cfg) cfg.miniter cfg.maxiter (cfg.maxiter + 1) 1 false s0
  assembleOutput cfg res.1 res.2

/-- The attribute surface of a Python 3 `dict` (its public methods).
`has_key` was removed in Python 3; looking it up raises `AttributeError`. -/
def py3DictMethodNames : List String :=
  ["clear", "copy", "fromkeys", "get", "items", "keys", "pop", "popitem",
   "setdefault", "update", "values"]

/-- Attribute lookup on a Python 3 `dict`: succeeds exactly for the names in
`py3DictMethodNames`, otherwise raises `AttributeError`. -/
def py3DictGetAttr (name : String) : Except PyErr Unit :=
  if py3DictMethodNames.contains name then Except.ok ()
  else Except.error PyErr.attributeError

/-- The configuration arguments inspected by the input validation at the top
of `SPIRALTAP` (source lines 276-310), as far as the claims need them.
Noise type and penalty arrive as raw strings here because the validation is
what gives them meaning. -/
structure SpiralArgs where
  noisetype : String
  penalty : String
  verbose : ℤ
  logepsilon : ℚ
  tolerance : ℚ
  subtolerance : ℚ
  miniter : ℤ
  maxiter : ℤ
  subminiter : ℤ
  submaxiter : ℤ

/-- The input validation of `SPIRALTAP` (source lines 276-310), in source
order: noise type, penalty, verbose, logepsilon, tolerance, subtolerance,
miniter/maxiter positivity, `miniter <= maxiter`, `subminiter <= submaxiter`.
Each failed check raises `TypeError`. -/
def validateInputs (a : SpiralArgs) : Except PyErr Unit :=
  if ¬ (["poisson", "gaussian"].contains a.noisetype.toLower) then
    Except.error PyErr.typeError
  else if ¬ (["canonical", "onb", "rdp", "rdp-ti", "tv"].contains a.penalty.toLower) then
    Except.error PyErr.typeError
  else if a.verbose < 0 then Except.error PyErr.typeError
  else if a.logepsilon < 0 then Except.error PyErr.typeError
  else if a.tolerance < 0 then Except.error PyErr.typeError
  else if a.subtolerance < 0 then Except.error PyErr.typeError
  else if a.miniter ≤ 0 ∨ a.maxiter ≤ 0 then Except.error PyErr.typeError
  else if a.miniter > a.maxiter then Except.error PyErr.typeError
  else if a.subminiter > a.submaxiter then Except.error PyErr.typeError
  else Except.ok ()

/-- The entry of `SPIRALTAP` under Python 3 semantics.  The first executable
statement of the function body (source line 273) is
`if not kwargs.has_key('acceptalphamax'):`, an attribute lookup of `has_key`
on the `kwargs` dict; only afterwards does the input validation run.  A
successful return of `()` would mean control reached the code after the
validation block (the main loop). -/
def spiraltapPy3Entry (a : SpiralArgs) : Except PyErr Unit := do
  _ ← py3DictGetAttr "has_key"
  validateInputs a

/-- Concrete configuration exercising the trace-truncation code path:
identity operator on length-1 vectors, `y = [1]`, `xinit = [1]`, `tau = 0`,
Gaussian noise, `miniter = 1`, `maxiter = 2`, `stopcriterion = 1`, all three
traces enabled. -/
def c4cfg : DriverCfg :=
  { A := fun l => l
    AT := fun l => l
    y := [1]
    sqrty := [1]
    tau := 0
    mu := 0
    logepsilon := 0
    noisetype := Noise.gaussian
    rlog := fun _ => 0
    alphainit := 1
    alphamin := 1 / 100
    alphamax := 100
    acceptdecrease := 1 / 10
    acceptpast := 10
    acceptmult := 2
    acceptalphamax := 100
    stopcriterion := 1
    tolerance := 1 / 1000000
    miniter := 1
    maxiter := 2
    saveobjective := true
    savecputime := true
    savereconerror := true
    elapsed := fun n => (n : ℚ)
    reconf := fun _ => 0
    btFuel := 5 }

/-- Concrete configuration for the `saveobjective = False` bookkeeping
behaviour: identity operator, `y = [2]`, `tau = 1`, Gaussian noise,
`acceptalphamax = 1` so that the first backtracking round is force-accepted,
`saveobjective = False`. -/
def c10cfg : DriverCfg :=
  { A := fun l => l
    AT := fun l => l
    y := [2]
    sqrty := [2]
    tau := 1
    mu := 0
    logepsilon := 0
    noisetype := Noise.gaussian
    rlog := fun _ => 0
    alphainit := 1
    alphamin := 1 / 100
    alphamax := 100
    acceptdecrease := 0
    acceptpast := 10
    acceptmult := 2
    acceptalphamax := 1
    stopcriterion := 1
    tolerance := 1 / 1000000
    miniter := 1
    maxiter := 2
    saveobjective := false
    savecputime := false
    savereconerror := false
    elapsed := fun _ => 0
    reconf := fun _ => 0
    btFuel := 5 }

/-- Concrete backtracking context: identity operator, `xprevious = [0]`,
`grad = [-2]`, `y = [2]`, `tau = 0`, Gaussian noise, `acceptdecrease = 1`,
`acceptmult = 2`, `acceptalphamax = 4`, `maxpastobj = 0`.  Starting from
`alpha = 1`, the rounds at `alpha = 1` and `alpha = 2` are rejected and the
round at `alpha = 4` is force-accepted by `alpha >= acceptalphamax`. -/
def wCtx : BTCtx :=
  { A := fun l => l
    xprevious := [0]
    Axprevious := [0]
    grad := [-2]
    y := [2]
    tau := 0
    mu := 0
    logepsilon := 0
    noisetype := Noise.gaussian
    rlog := fun _ => 0
    acceptdecrease := 1
    acceptmult := 2
    acceptalphamax := 4
    maxpastobj := 0 }

/-! ## Helper lemmas -/

theorem init_le_foldl_max (l : List ℚ) : ∀ init : ℚ, init ≤ l.foldl max init := by
  induction l with
  | nil => intro init; simp
  | cons b t ih =>
      intro init
      calc init ≤ max init b := le_max_left _ _
        _ ≤ t.foldl max (max init b) := ih _
        _ = (b :: t).foldl max init := rfl

theorem mem_le_foldl_max (l : List ℚ) :
    ∀ (init a : ℚ), a ∈ l → a ≤ l.foldl max init := by
  induction l with
  | nil => intro _ _ h; simp at h
  | cons b t ih =>
      intro init a ha
      rcases List.mem_cons.1 ha with h | h
      · subst h
        calc a ≤ max init a := le_max_right _ _
          _ ≤ t.foldl max (max init a) := init_le_foldl_max _ _
      · exact ih (max init b) a h

theorem foldl_max_mem (l : List ℚ) :
    ∀ init : ℚ, l.foldl max init = init ∨ l.foldl max init ∈ l := by
  induction l with
  | nil => intro _; left; rfl
  | cons b t ih =>
      intro init
      rcases ih (max init b) with h | h
      · rcases max_choice init b with hc | hc
        · left; rw [show (b :: t).foldl max init = t.foldl max (max init b) from rfl, h, hc]
        · right
          rw [show (b :: t).foldl max init = t.foldl max (max init b) from rfl, h, hc]
          exact List.mem_cons_self _ _
      · right
        exact List.mem_cons_of_mem _ h

theorem npListMax_ge (l : List ℚ) (a : ℚ) (ha : a ∈ l) : a ≤ npListMax l :=
  mem_le_foldl_max l (l.headD 0) a ha

theorem npListMax_mem (l : List ℚ) (hne : l ≠ []) : npListMax l ∈ l := by
  match l with
  | [] => exact absurd rfl hne
  | b :: t =>
      rcases foldl_max_mem (b :: t) ((b :: t).headD 0) with h | h
      · rw [npListMax, h]; exact List.mem_cons_self _ _
      · rw [npListMax]; exact h

theorem pastWindow_ne_nil (itern acceptpast : ℕ) (h : 1 ≤ itern) :
    pastWindow itern acceptpast ≠ [] := by
  rw [pastWindow]
  intro hc
  have hlen := congrArg List.length hc
  simp only [List.length_range', List.length_nil] at hlen
  omega

theorem maxpast_ge (itern acceptpast : ℕ) (obj : List ℚ) :
    ∀ i ∈ pastWindow itern acceptpast,
      obj.getD i 0 ≤ maxpastobjective itern acceptpast obj := by
  intro i hi
  exact npListMax_ge _ _ (List.mem_map_of_mem _ hi)

theorem maxpast_attained (itern acceptpast : ℕ) (obj : List ℚ) (h : 1 ≤ itern) :
    ∃ i ∈ pastWindow itern acceptpast,
      maxpastobjective itern acceptpast obj = obj.getD i 0 := by
  have hmem : maxpastobjective itern acceptpast obj ∈
      (pastWindow itern acceptpast).map (fun i => obj.getD i 0) := by
    apply npListMax_mem
    simp only [ne_eq, List.map_eq_nil_iff]
    exact pastWindow_ne_nil itern acceptpast h
  rcases List.mem_map.1 hmem with ⟨i, hi, hval⟩
  exact ⟨i, hi, hval.symm⟩

theorem runLoop_result_bounds {σ : Type} (body : ℕ → σ → σ × Bool)
    (miniter maxiter : ℕ) (hmm : miniter ≤ maxiter) :
    ∀ (fuel itern : ℕ) (conv : Bool) (s : σ), itern ≤ maxiter + 1 →
      maxiter + 2 ≤ fuel + itern →
      ((runLoop body miniter maxiter fuel itern conv s).1 ≤ maxiter + 1 ∧
        (itern ≤ miniter + 1 →
          miniter + 1 ≤ (runLoop body miniter maxiter fuel itern conv s).1) ∧
        (miniter + 1 ≤ itern →
          itern ≤ (runLoop body miniter maxiter fuel itern conv s).1)) := by
  intro fuel
  induction fuel with
  | zero => intro itern conv s h1 h2; omega
  | succ n ih =>
      intro itern conv s h1 h2
      rw [runLoop]
      by_cases hg : itern ≤ miniter ∨ (itern ≤ maxiter ∧ conv = false)
      · rw [if_pos hg]
        have hit : itern ≤ maxiter := by rcases hg with h | h <;> omega
        obtain ⟨ha, hb, hc⟩ :=
          ih (itern + 1) (body itern s).2 (body itern s).1 (by omega) (by omega)
        refine ⟨ha, ?_, ?_⟩
        · intro _
          by_cases h4 : itern + 1 ≤ miniter + 1
          · exact hb h4
          · have := hc (by omega)
            omega
        · intro h5
          have := hc (by omega)
          omega
      · rw [if_neg hg]
        have hnm : ¬ itern ≤ miniter := fun hc => hg (Or.inl hc)
        exact ⟨h1, fun h => by omega, fun _ => le_refl _⟩

theorem runLoop_preserves {σ : Type} (body : ℕ → σ → σ × Bool)
    (miniter maxiter : ℕ) (P : σ → Prop) (hP : ∀ n s, P s → P (body n s).1) :
    ∀ (fuel itern : ℕ) (conv : Bool) (s : σ),
      P s → P (runLoop body miniter maxiter fuel itern conv s).2 := by
  intro fuel
  induction fuel with
  | zero => intro itern conv s hs; exact hs
  | succ n ih =>
      intro itern conv s hs
      rw [runLoop]
      by_cases hg : itern ≤ miniter ∨ (itern ≤ maxiter ∧ conv = false)
      · rw [if_pos hg]
        exact ih (itern + 1) (body itern s).2 (body itern s).1 (hP itern s hs)
      · rw [if_neg hg]
        exact hs

theorem mem_zipWith_zero_left (f : ℚ → ℚ → ℚ) (hf : ∀ b : ℚ, f 0 b = 0) :
    ∀ (l r : List ℚ), (∀ a ∈ l, a = 0) → ∀ c ∈ List.zipWith f l r, c = 0 := by
  intro l
  induction l with
  | nil => intro r _ c hc; simp at hc
  | cons a t ih =>
      intro r hl c hc
      cases r with
      | nil => simp at hc
      | cons b rt =>
          rw [List.zipWith_cons_cons] at hc
          rcases List.mem_cons.1 hc with h | h
          · have ha : a = 0 := hl a (List.mem_cons_self _ _)
            rw [h, ha, hf]
          · exact ih rt (fun u hu => hl u (List.mem_cons_of_mem _ hu)) c h

theorem mem_vsub_self (l : List ℚ) : ∀ a ∈ vsub l l, a = 0 := by
  induction l with
  | nil => intro a ha; simp [vsub] at ha
  | cons b t ih =>
      intro a ha
      rw [vsub, List.zipWith_cons_cons] at ha
      rcases List.mem_cons.1 ha with h | h
      · rw [h]; ring
      · exact ih a h

theorem mem_bbScaledAdx_zero (noisetype : Noise) (Adx sqrty Ax : List ℚ)
    (logepsilon : ℚ) (h : ∀ a ∈ Adx, a = 0) :
    ∀ c ∈ bbScaledAdx noisetype Adx sqrty Ax logepsilon, c = 0 := by
  cases noisetype with
  | gaussian => exact h
  | poisson =>
      apply mem_zipWith_zero_left (fun p axi => p / (axi + logepsilon))
        (fun b => zero_div _)
      exact mem_zipWith_zero_left (fun a s => a * s) (fun b => zero_mul _) Adx sqrty h

theorem sumsq_eq_zero_of_all_zero (l : List ℚ) (h : ∀ a ∈ l, a = 0) :
    sumsq l = 0 := by
  induction l with
  | nil => rfl
  | cons a t ih =>
      have ha : a = 0 := h a (List.mem_cons_self _ _)
      have ht := ih (fun u hu => h u (List.mem_cons_of_mem _ hu))
      simp only [sumsq, vsum, List.map_cons, List.sum_cons] at ht ⊢
      rw [ha, ht]
      ring

theorem bbScaledAdx_eq_spec (noisetype : Noise) :
    ∀ (Adx sqrty Ax : List ℚ) (logepsilon : ℚ),
      bbScaledAdx noisetype Adx sqrty Ax logepsilon =
        specAdxScaled noisetype Adx sqrty Ax logepsilon := by
  cases noisetype with
  | gaussian => intro Adx sqrty Ax eps; rfl
  | poisson =>
      intro Adx
      induction Adx with
      | nil => intro sqrty Ax eps; rfl
      | cons a t ih =>
          intro sqrty Ax eps
          cases sqrty with
          | nil => rfl
          | cons s st =>
              cases Ax with
              | nil => rfl
              | cons b bt =>
                  simp only [bbScaledAdx, specAdxScaled, List.zipWith_cons_cons,
                    List.zip_cons_cons, List.map_cons]
                  refine congrArg (List.cons _) ?_
                  exact ih st bt eps

theorem bbGamma_eq_specGamma (noisetype : Noise) (Adx sqrty Ax : List ℚ)
    (logepsilon : ℚ) :
    bbGamma noisetype Adx sqrty Ax logepsilon =
      specGamma noisetype Adx sqrty Ax logepsilon := by
  rw [bbGamma, specGamma, bbScaledAdx_eq_spec]

theorem if_neg_lt_eq_max (v : ℚ) : (if v < 0 then (0 : ℚ) else v) = max v 0 := by
  rcases lt_or_le v 0 with h | h
  · rw [if_pos h, max_eq_right h.le]
  · rw [if_neg (not_lt.2 h), max_eq_left h]

theorem canonicalSub_eq_map_max (step : List ℚ) (tau alpha mu : ℚ) :
    canonicalSub step tau alpha mu =
      step.map (fun s => max (s - tau / alpha + mu) 0) := by
  rw [canonicalSub, List.map_map]
  refine List.map_congr_left ?_
  intro a _
  exact if_neg_lt_eq_max _

theorem canonicalSub_nonneg (step : List ℚ) (tau alpha mu : ℚ) :
    ∀ v ∈ canonicalSub step tau alpha mu, 0 ≤ v := by
  intro v hv
  rw [canonicalSub_eq_map_max] at hv
  rcases List.mem_map.1 hv with ⟨a, _, hval⟩
  rw [← hval]
  exact le_max_right _ _

theorem backtrack_some_shape (c : BTCtx) :
    ∀ (fuel : ℕ) (alpha : ℚ) (r : BTResult), backtrack c fuel alpha = some r →
      ∃ b : ℚ, r = btCandidate c b := by
  intro fuel
  induction fuel with
  | zero => intro alpha r h; exact absurd h (by rw [backtrack]; simp)
  | succ n ih =>
      intro alpha r h
      rw [backtrack] at h
      by_cases hacc : btAccepts c alpha = true
      · rw [if_pos hacc] at h
        exact ⟨alpha, (Option.some.injEq _ _ ▸ h :
          btCandidate c alpha = r).symm⟩
      · rw [if_neg hacc] at h
        exact ih (c.acceptmult * alpha) r h

theorem monotoneBody_preserves_lengths (cfg : DriverCfg) (itern : ℕ)
    (s : DriverState) :
    (monotoneBody cfg itern s).1.objective.length = s.objective.length ∧
    (monotoneBody cfg itern s).1.cputime.length = s.cputime.length ∧
    (monotoneBody cfg itern s).1.reconerror.length = s.reconerror.length := by
  cases hbt : backtrack (mkBTCtx cfg itern s) cfg.btFuel s.alpha with
  | none => simp [monotoneBody, hbt]
  | some r =>
      refine ⟨?_, ?_, ?_⟩ <;>
        simp only [monotoneBody, hbt, List.length_set] <;>
        split_ifs <;>
        simp [List.length_set]

/-! ## Claim theorems -/

/-- C1 (counterexample): the acceptance test of the source compares the
candidate objective against `max(objective[max(itern-1-acceptpast,0) : itern])`,
a window of `min(itern, acceptpast+1)` entries that includes the initial
entry at index 0 — not against the maximum over the last
`min(itern-1, acceptpast)` iterations as the claim states.  At `itern = 2`,
`acceptpast = 10`, objective trace `[5, 1]`, the source window is `{0, 1}`
with maximum 5 while the claim's window is `{1}` with maximum 1; a candidate
objective of 3 (with `||dx||^2 = 0`, `alpha = 1 < acceptalphamax = 1000`) is
accepted by the source but rejected under the claim's formula. -/
theorem C1_window_counterexample :
    maxpastobjective 2 10 [5, 1] = 5 ∧
    specPastMax 2 10 [5, 1] = 1 ∧
    acceptTest 3 (maxpastobjective 2 10 [5, 1]) (1 / 10) 1 0 1000 = true ∧
    acceptTest 3 (specPastMax 2 10 [5, 1]) (1 / 10) 1 0 1000 = false := by
  norm_num [maxpastobjective, specPastMax, pastWindow, npListMax, acceptTest,
    List.range']

/-- C1 (amended): a candidate step of the monotone backtracking loop is
accepted exactly when its objective is at most
`maxpastobjective - acceptdecrease*alpha/2*||dx||^2` or `alpha >=
acceptalphamax`, where `maxpastobjective` is the maximum of the objective
entries at indices `max(itern-1-acceptpast, 0), ..., itern-1` (the last
`min(itern, acceptpast+1)` stored values, including the initializer's entry
at index 0 while `itern-1 <= acceptpast`); on each rejection `alpha` is
multiplied by `acceptmult` and the proximal step and objective evaluation
are retried.  Part one characterizes a terminating backtracking search: the
accepted round is the candidate at `acceptmult^k * alpha` for some `k`, its
acceptance test holds, and the test failed at every earlier trial step size.
Part two identifies `maxpastobjective` as the maximum over the source's
window. -/
theorem C1_step_acceptance :
    (∀ (c : BTCtx) (fuel : ℕ) (alpha : ℚ) (r : BTResult),
      backtrack c fuel alpha = some r →
        ∃ k : ℕ, r = btCandidate c (c.acceptmult ^ k * alpha) ∧
          btAccepts c (c.acceptmult ^ k * alpha) = true ∧
          ∀ j < k, btAccepts c (c.acceptmult ^ j * alpha) = false) ∧
    (∀ (itern acceptpast : ℕ) (obj : List ℚ), 1 ≤ itern →
      (∀ i ∈ pastWindow itern acceptpast,
        obj.getD i 0 ≤ maxpastobjective itern acceptpast obj) ∧
      ∃ i ∈ pastWindow itern acceptpast,
        maxpastobjective itern acceptpast obj = obj.getD i 0) := by
  constructor
  · intro c fuel
    induction fuel with
    | zero => intro alpha r h; exact absurd h (by rw [backtrack]; simp)
    | succ n ih =>
        intro alpha r h
        rw [backtrack] at h
        by_cases hacc : btAccepts c alpha = true
        · rw [if_pos hacc] at h
          refine ⟨0, ?_, ?_, ?_⟩
          · rw [pow_zero, one_mul]
            exact (Option.some.injEq _ _ ▸ h : btCandidate c alpha = r).symm
          · rw [pow_zero, one_mul]; exact hacc
          · intro j hj; omega
        · rw [if_neg hacc] at h
          obtain ⟨k, h1, h2, h3⟩ := ih (c.acceptmult * alpha) r h
          have hpow : ∀ m : ℕ, c.acceptmult ^ m * (c.acceptmult * alpha) =
              c.acceptmult ^ (m + 1) * alpha := by
            intro m; ring
          refine ⟨k + 1, ?_, ?_, ?_⟩
          · rw [← hpow k]; exact h1
          · rw [← hpow k]; exact h2
          · intro j hj
            cases j with
            | zero =>
                rw [pow_zero, one_mul]
                cases h0 : btAccepts c alpha with
                | false => rfl
                | true => exact absurd h0 hacc
            | succ m =>
                rw [← hpow m]
                exact h3 m (by omega)
  · intro itern acceptpast obj h
    exact ⟨maxpast_ge itern acceptpast obj, maxpast_attained itern acceptpast obj h⟩

/-- C1 (witness): a concrete backtracking search in `wCtx` starting at
`alpha = 1` terminates with the candidate at `alpha = 4`, reached after two
rejected rounds. -/
theorem C1_step_acceptance_witness :
    ∃ k : ℕ,
      btCandidate wCtx 4 = btCandidate wCtx (wCtx.acceptmult ^ k * 1) ∧
      btAccepts wCtx (wCtx.acceptmult ^ k * 1) = true ∧
      ∀ j < k, btAccepts wCtx (wCtx.acceptmult ^ j * 1) = false :=
  C1_step_acceptance.1 wCtx 5 1 (btCandidate wCtx 4)
    (by norm_num [backtrack, btAccepts, btCandidate, acceptTest, wCtx,
      canonicalSub, computeobjective, sumsq, vsum, vsub])

/-- C2: after every iteration of the BB branch, the next step size computed
by the source equals `clamp(alphamin, alphamax, gamma/||dx||^2)` with
`gamma = sum(Adx_scaled^2)` as the spec describes (first part, with
`specGamma`/`clampSpec` written from the spec's words); whenever
`gamma == 0` the next step size is `alphamin` (second part); and in
particular whenever `dx == 0` — so that `Adx = A(x) - A(xprevious) = 0` —
the next step size is `alphamin` (third part). -/
theorem C2_bb_alpha_update :
    (∀ (noisetype : Noise) (Adx sqrty Ax : List ℚ)
        (logepsilon normsqdx alphamin alphamax : ℚ),
      bbNextAlpha noisetype Adx sqrty Ax logepsilon normsqdx alphamin alphamax =
        if specGamma noisetype Adx sqrty Ax logepsilon = 0 then alphamin
        else clampSpec alphamin alphamax
          (specGamma noisetype Adx sqrty Ax logepsilon / normsqdx)) ∧
    (∀ (noisetype : Noise) (Adx sqrty Ax : List ℚ)
        (logepsilon normsqdx alphamin alphamax : ℚ),
      bbGamma noisetype Adx sqrty Ax logepsilon = 0 →
        bbNextAlpha noisetype Adx sqrty Ax logepsilon normsqdx alphamin alphamax =
          alphamin) ∧
    (∀ (noisetype : Noise) (A : List ℚ → List ℚ) (x xprevious sqrty : List ℚ)
        (logepsilon normsqdx alphamin alphamax : ℚ),
      x = xprevious →
        bbNextAlpha noisetype (vsub (A x) (A xprevious)) sqrty (A x) logepsilon
          normsqdx alphamin alphamax = alphamin) := by
  refine ⟨?_, ?_, ?_⟩
  · intro noisetype Adx sqrty Ax logepsilon normsqdx alphamin alphamax
    simp only [bbNextAlpha, clampSpec, bbGamma_eq_specGamma]
  · intro noisetype Adx sqrty Ax logepsilon normsqdx alphamin alphamax h
    simp only [bbNextAlpha]
    rw [if_pos h]
  · intro noisetype A x xprevious sqrty logepsilon normsqdx alphamin alphamax h
    subst h
    have hz : bbGamma noisetype (vsub (A x) (A x)) sqrty (A x) logepsilon = 0 :=
      sumsq_eq_zero_of_all_zero _
        (mem_bbScaledAdx_zero noisetype _ sqrty (A x) logepsilon (mem_vsub_self _))
    simp only [bbNextAlpha]
    rw [if_pos hz]

/-- C2 (witness): Poisson noise with `Adx = [1]`, `sqrty = [2]` (so
`y = [4]`), `Ax = [1]`, `epsilon = 0`, `||dx||^2 = 1`, bounds `[1/2, 3]`
gives `gamma = 4` and next step size `min(3, max(4, 1/2)) = 3`; and a zero
step `x = xprevious = [1]` under the identity operator gives `alphamin = 1/2`. -/
theorem C2_bb_alpha_update_witness :
    bbNextAlpha Noise.poisson [1] [2] [1] 0 1 (1 / 2) 3 = 3 ∧
    bbNextAlpha Noise.poisson (vsub ((fun l => l) [1]) ((fun l => l) [1])) [2]
      ((fun l => l) [1]) 0 1 (1 / 2) 3 = 1 / 2 :=
  ⟨(C2_bb_alpha_update.1 Noise.poisson [1] [2] [1] 0 1 (1 / 2) 3).trans
      (by norm_num [specGamma, specAdxScaled, sumsq, vsum, clampSpec, List.zip]),
   C2_bb_alpha_update.2.2 Noise.poisson (fun l => l) [1] [1] [2] 0 1 (1 / 2) 3 rfl⟩

/-- C3: the claim says the objective evaluator returns the data-fit term
plus the canonical penalty `sum(|tau*x|)`.  The source's penalty dispatch
compares the unapplied method object `penalty.lower` with a string, which is
always false in Python, so the penalty term is never added: at `x = [1]`,
`y = [1]`, `Ax = [0]`, `tau = 1`, Gaussian noise, the source returns the
bare data-fit value `1/2` while the specified objective is `3/2`. -/
theorem C3_objective_penalty_dropped :
    computeobjective (fun _ => 0) [1] [1] [0] 1 Noise.gaussian 0
        Penalty.canonical = 1 / 2 ∧
    specObjective (fun _ => 0) [1] [1] [0] 1 Noise.gaussian 0 = 3 / 2 ∧
    ((1 : ℚ) / 2) ≠ 3 / 2 := by
  norm_num [computeobjective, specObjective, sumsq, vsum, vsub]

/-- C5: for the canonical penalty, `computesubsolution` returns
`max(step - tau/alpha + mu, 0)` elementwise (first part); every vector it
returns is componentwise nonnegative (second part); and consequently the
signal estimate produced by every (monotone, canonical-penalty) proximal
step of the driver is componentwise nonnegative (third part). -/
theorem C5_canonical_prox :
    (∀ (step : List ℚ) (tau alpha mu : ℚ),
      computesubsolution step tau alpha Penalty.canonical mu =
        Except.ok (step.map (fun s => max (s - tau / alpha + mu) 0))) ∧
    (∀ (step : List ℚ) (tau alpha mu : ℚ) (out : List ℚ),
      computesubsolution step tau alpha Penalty.canonical mu = Except.ok out →
        ∀ v ∈ out, 0 ≤ v) ∧
    (∀ (c : BTCtx) (fuel : ℕ) (alpha : ℚ) (r : BTResult),
      backtrack c fuel alpha = some r → ∀ v ∈ r.x, 0 ≤ v) := by
  refine ⟨?_, ?_, ?_⟩
  · intro step tau alpha mu
    simp only [computesubsolution]
    rw [canonicalSub_eq_map_max]
  · intro step tau alpha mu out hout v hv
    have heq : canonicalSub step tau alpha mu = out := by
      simpa [computesubsolution] using hout
    exact canonicalSub_nonneg step tau alpha mu v (heq ▸ hv)
  · intro c fuel alpha r hr v hv
    obtain ⟨b, hb⟩ := backtrack_some_shape c fuel alpha r hr
    subst hb
    simp only [btCandidate] at hv
    exact canonicalSub_nonneg _ _ _ _ v hv

/-- C5 (witness): `computesubsolution([-1, 2], 1, 1, canonical, 0) = [0, 1]`,
whose entries are nonnegative. -/
theorem C5_canonical_prox_witness :
    computesubsolution [-1, 2] 1 1 Penalty.canonical 0 = Except.ok [0, 1] ∧
    ∀ v ∈ ([0, 1] : List ℚ), 0 ≤ v :=
  ⟨(C5_canonical_prox.1 [-1, 2] 1 1 0).trans (by norm_num),
   C5_canonical_prox.2.1 [-1, 2] 1 1 0 [0, 1]
     ((C5_canonical_prox.1 [-1, 2] 1 1 0).trans (by norm_num))⟩

/-- C6: the main loop continues exactly while
`itern <= miniter or (itern <= maxiter and not converged)` — one unfolding
step of `runLoop` runs the body exactly when that guard holds and exits with
the current `itern` otherwise (second and third parts) — and for every run
that returns (any loop body, valid iteration bounds), the returned iteration
count `spiralIterations` satisfies `miniter <= iterations <= maxiter`
(first part). -/
theorem C6_loop_guard_and_bounds :
    (∀ (σ : Type) (body : ℕ → σ → σ × Bool) (miniter maxiter : ℕ) (s : σ),
      1 ≤ miniter → miniter ≤ maxiter →
        miniter ≤ spiralIterations body miniter maxiter s ∧
        spiralIterations body miniter maxiter s ≤ maxiter) ∧
    (∀ (σ : Type) (body : ℕ → σ → σ × Bool) (miniter maxiter fuel itern : ℕ)
        (conv : Bool) (s : σ),
      (itern ≤ miniter ∨ (itern ≤ maxiter ∧ conv = false)) →
        runLoop body miniter maxiter (fuel + 1) itern conv s =
          runLoop body miniter maxiter fuel (itern + 1) (body itern s).2
            (body itern s).1) ∧
    (∀ (σ : Type) (body : ℕ → σ → σ × Bool) (miniter maxiter fuel itern : ℕ)
        (conv : Bool) (s : σ),
      ¬(itern ≤ miniter ∨ (itern ≤ maxiter ∧ conv = false)) →
        runLoop body miniter maxiter (fuel + 1) itern conv s = (itern, s)) := by
  refine ⟨?_, ?_, ?_⟩
  · intro σ body miniter maxiter s h1 h2
    obtain ⟨ha, hb, -⟩ := runLoop_result_bounds body miniter maxiter h2
      (maxiter + 1) 1 false s (by omega) (by omega)
    have hc := hb (by omega)
    rw [spiralIterations]
    omega
  · intro σ body miniter maxiter fuel itern conv s hg
    rw [runLoop, if_pos hg]
  · intro σ body miniter maxiter fuel itern conv s hg
    rw [runLoop, if_neg hg]

/-- C6 (witness): with a body that immediately reports convergence and
bounds `miniter = 1`, `maxiter = 2`, the returned iteration count is within
`[1, 2]`; and the two guard cases evaluated at `itern = 1` (guard true) and
`itern = 3, conv = true` (guard false). -/
theorem C6_loop_guard_and_bounds_witness :
    (1 ≤ spiralIterations (fun _ (s : Unit) => (s, true)) 1 2 () ∧
      spiralIterations (fun _ (s : Unit) => (s, true)) 1 2 () ≤ 2) ∧
    runLoop (fun _ (s : Unit) => (s, true)) 1 2 3 1 false () =
      runLoop (fun _ (s : Unit) => (s, true)) 1 2 2 2 true () ∧
    runLoop (fun _ (s : Unit) => (s, true)) 1 2 2 3 true () = (3, ()) :=
  ⟨C6_loop_guard_and_bounds.1 Unit (fun _ s => (s, true)) 1 2 () (by omega)
      (by omega),
   C6_loop_guard_and_bounds.2.1 Unit (fun _ s => (s, true)) 1 2 2 1 false ()
      (by omega),
   C6_loop_guard_and_bounds.2.2 Unit (fun _ s => (s, true)) 1 2 1 3 true ()
      (by omega)⟩

/-- C7: with stop criterion 3 and `itern >= miniter`, `checkconvergence`
reports convergence exactly when `(sum(dx))^2 / (sum(x))^2 <= tolerance^2` —
the square of the summed entries, not the sum of squared entries (first
part); and for `itern < miniter` it returns false for every criterion value,
including the unimplemented ones (second part). -/
theorem C7_stopcriterion3 :
    (∀ (itern miniter : ℕ) (tolerance : ℚ) (dx x : List ℚ) (cputime : ℚ)
        (objective : List ℚ), miniter ≤ itern →
      (checkconvergence itern miniter 3 tolerance dx x cputime objective =
          Except.ok true ↔ (vsum dx) ^ 2 / (vsum x) ^ 2 ≤ tolerance ^ 2)) ∧
    (∀ (itern miniter : ℕ) (sc : ℤ) (tolerance : ℚ) (dx x : List ℚ)
        (cputime : ℚ) (objective : List ℚ), itern < miniter →
      checkconvergence itern miniter sc tolerance dx x cputime objective =
        Except.ok false) := by
  constructor
  · intro itern miniter tolerance dx x cputime objective h
    simp [checkconvergence, h]
  · intro itern miniter sc tolerance dx x cputime objective h
    rw [checkconvergence, if_neg (by omega)]

/-- C7 (witness): at `itern = miniter = 5` with `dx = x = [1]` and
`tolerance = 1` the criterion-3 test reports convergence iff `1 <= 1`; and
at `itern = 4 < miniter = 5` the checker returns false. -/
theorem C7_stopcriterion3_witness :
    (checkconvergence 5 5 3 1 [1] [1] 0 [] = Except.ok true ↔
      (vsum [1]) ^ 2 / (vsum [1]) ^ 2 ≤ (1 : ℚ) ^ 2) ∧
    checkconvergence 4 5 3 1 [1] [1] 0 [] = Except.ok false :=
  ⟨C7_stopcriterion3.1 5 5 1 [1] [1] 0 [] (by omega),
   C7_stopcriterion3.2 4 5 3 1 [1] [1] 0 [] (by omega)⟩

/-- C8: the claim (and spec section 4.5) requires an unrecognized stopping
criterion to fail with an `InvalidConfiguration` error.  The source instead
leaves `converged = 0` and returns it: for every criterion value outside
1..6, `checkconvergence` silently returns `Except.ok false` and never
raises. -/
theorem C8_unrecognized_criterion_silent (sc : ℤ) (hsc : sc < 1 ∨ 6 < sc)
    (itern miniter : ℕ) (tolerance : ℚ) (dx x : List ℚ) (cputime : ℚ)
    (objective : List ℚ) :
    checkconvergence itern miniter sc tolerance dx x cputime objective =
      Except.ok false := by
  have h1 : ¬ sc = 1 := by omega
  have h2 : ¬ sc = 2 := by omega
  have h3 : ¬ sc = 3 := by omega
  have h4 : ¬ sc = 4 := by omega
  have h5 : ¬ sc = 5 := by omega
  have h6 : ¬ sc = 6 := by omega
  by_cases h : itern ≥ miniter
  · rw [checkconvergence, if_pos h, if_neg h1, if_neg h2, if_neg h3, if_neg h4,
      if_neg h5, if_neg h6]
  · rw [checkconvergence, if_neg h]

/-- C8 (witness): criterion 7 at `itern = miniter = 5` silently returns
`ok false` instead of raising. -/
theorem C8_unrecognized_criterion_silent_witness :
    checkconvergence 5 5 7 (1 / 100) [1] [1] 0 [] = Except.ok false :=
  C8_unrecognized_criterion_silent 7 (by omega) 5 5 (1 / 100) [1] [1] 0 []

/-- C9: under Python 3 semantics, every invocation of `SPIRALTAP` first
evaluates `kwargs.has_key('acceptalphamax')` (source line 273), an attribute
lookup that precedes the whole validation block; Python 3 dicts have no
`has_key` method, so every call — whatever the arguments, valid or not —
raises `AttributeError` and never reaches the validation, the main loop, or
a return. -/
theorem C9_py3_entry_attribute_error :
    ∀ a : SpiralArgs,
      spiraltapPy3Entry a = Except.error PyErr.attributeError ∧
      ∀ u : Unit, spiraltapPy3Entry a ≠ Except.ok u := by
  intro a
  have h1 : spiraltapPy3Entry a = Except.error PyErr.attributeError := rfl
  exact ⟨h1, fun u hu => Except.noConfusion (h1.symm.trans hu)⟩

/-- C10 (counterexample): the claim says that with `saveobjective = False`
the acceptance window reads entries that remain zero-initialized *for all
past iterations*.  In the concrete run `c10cfg` (monotone BB, canonical
penalty, `saveobjective = false`), iteration 1 itself writes
`objective[1] = 1/2` (the unconditional write at source line 574), so at
iteration 2 the window `{0, 1}` reads the freshly computed value `1/2 ≠ 0`
for past iteration 1 — only the initializer's entry at index 0 is still
zero. -/
theorem C10_stale_window_counterexample :
    c10cfg.saveobjective = false ∧
    (monotoneBody c10cfg 1 (initState c10cfg [2])).1.objective = [0, 1 / 2, 0] ∧
    maxpastobjective 2 c10cfg.acceptpast [0, 1 / 2, 0] = 1 / 2 ∧
    ((1 : ℚ) / 2) ≠ 0 := by
  refine ⟨rfl, ?_, ?_, by norm_num⟩
  · norm_num [monotoneBody, mkBTCtx, initState, c10cfg, backtrack, btAccepts,
      btCandidate, acceptTest, canonicalSub, computeobjective, computegrad,
      sumsq, vsum, vsub, maxpastobjective, pastWindow, npListMax, List.range',
      bbNextAlpha, bbGamma, bbScaledAdx, checkconvergence, List.replicate,
      List.set]
  · norm_num [maxpastobjective, pastWindow, npListMax, c10cfg, List.range']

/-- C10 (amended): in the monotone BB branch, `objective[itern]` is computed
and written on every backtracking round regardless of the `saveobjective`
flag — the body's objective array is `objective.set itern` of the accepted
candidate's objective (first part), and the body's result does not depend on
`saveobjective` at all (second part); consequently, when `saveobjective` is
False only the initializer's entry remains zero-initialized — the
preallocated array is all zeros and index 0 is never written (third part) —
while the entries of past iterations >= 1 hold the objectives those
iterations computed. -/
theorem C10_objective_write :
    (∀ (cfg : DriverCfg) (itern : ℕ) (s : DriverState) (r : BTResult),
      backtrack (mkBTCtx cfg itern s) cfg.btFuel s.alpha = some r →
        (monotoneBody cfg itern s).1.objective = s.objective.set itern r.objItern) ∧
    (∀ (cfg : DriverCfg) (itern : ℕ) (s : DriverState),
      monotoneBody { cfg with saveobjective := true } itern s =
        monotoneBody { cfg with saveobjective := false } itern s) ∧
    (∀ (cfg : DriverCfg) (xinit : List ℚ), cfg.saveobjective = false →
      (initState cfg xinit).objective = List.replicate (cfg.maxiter + 1) 0) := by
  refine ⟨?_, ?_, ?_⟩
  · intro cfg itern s r h
    simp only [monotoneBody, h]
  · intro cfg itern s
    rfl
  · intro cfg xinit h
    simp [initState, h]

/-- C10 (witness): the concrete iteration of `c10cfg` writes the accepted
candidate objective `1/2` at index `itern = 1` even though
`saveobjective = false`. -/
theorem C10_objective_write_witness :
    (monotoneBody c10cfg 1 (initState c10cfg [2])).1.objective =
      (initState c10cfg [2]).objective.set 1 (1 / 2) :=
  C10_objective_write.1 c10cfg 1 (initState c10cfg [2])
    ⟨[1], [-1], [1], [-1], 1, 1 / 2, 1, 2⟩
    (by norm_num [backtrack, btAccepts, btCandidate, acceptTest, mkBTCtx,
      initState, c10cfg, canonicalSub, computeobjective, computegrad, sumsq,
      vsum, vsub, maxpastobjective, pastWindow, npListMax, List.range',
      List.replicate, List.set])

/-- C4: the claim (and the source's own header documentation, lines 78-96)
says every enabled diagnostic trace has length `itern + 1` at termination.
The source truncates each trace as `trace[0:itern]` (lines 660-668), a slice
of length `itern`: for every run of the embedded driver (valid iteration
bounds, an implemented stopping criterion), every enabled returned trace has
length exactly `iterations` — and therefore not `iterations + 1`. -/
theorem C4_trace_truncation (cfg : DriverCfg) (xinit : List ℚ)
    (h1 : 1 ≤ cfg.miniter) (h2 : cfg.miniter ≤ cfg.maxiter)
    (hsc : cfg.stopcriterion = 1 ∨ cfg.stopcriterion = 2 ∨
      cfg.stopcriterion = 3 ∨ cfg.stopcriterion = 4)
    (t : List ℚ)
    (ht : (SPIRALTAPexec cfg xinit).objectiveTrace = some t ∨
      (SPIRALTAPexec cfg xinit).cputimeTrace = some t ∨
      (SPIRALTAPexec cfg xinit).reconerrorTrace = some t) :
    t.length = (SPIRALTAPexec cfg xinit).iterations ∧
    t.length ≠ (SPIRALTAPexec cfg xinit).iterations + 1 := by
  have hexec : SPIRALTAPexec cfg xinit =
      assembleOutput cfg
        (runLoop (monotoneBody cfg) cfg.miniter cfg.maxiter (cfg.maxiter + 1) 1
          false (initState cfg xinit)).1
        (runLoop (monotoneBody cfg) cfg.miniter cfg.maxiter (cfg.maxiter + 1) 1
          false (initState cfg xinit)).2 := rfl
  obtain ⟨hbound, -, -⟩ := runLoop_result_bounds (monotoneBody cfg) cfg.miniter
    cfg.maxiter h2 (cfg.maxiter + 1) 1 false (initState cfg xinit) (by omega)
    (by omega)
  have hinit : (initState cfg xinit).objective.length = cfg.maxiter + 1 ∧
      (initState cfg xinit).cputime.length = cfg.maxiter + 1 ∧
      (initState cfg xinit).reconerror.length = cfg.maxiter + 1 := by
    refine ⟨?_, ?_, ?_⟩ <;> simp only [initState] <;> (try split_ifs) <;>
      simp [List.length_set, List.length_replicate]
  have hlen := runLoop_preserves (monotoneBody cfg) cfg.miniter cfg.maxiter
    (fun s => s.objective.length = cfg.maxiter + 1 ∧
      s.cputime.length = cfg.maxiter + 1 ∧
      s.reconerror.length = cfg.maxiter + 1)
    (fun n s hs => by
      obtain ⟨ho, hc, hr⟩ := monotoneBody_preserves_lengths cfg n s
      exact ⟨ho.trans hs.1, hc.trans hs.2.1, hr.trans hs.2.2⟩)
    (cfg.maxiter + 1) 1 false (initState cfg xinit) hinit
  obtain ⟨hl1, hl2, hl3⟩ := hlen
  have hiter : (SPIRALTAPexec cfg xinit).iterations =
      (runLoop (monotoneBody cfg) cfg.miniter cfg.maxiter (cfg.maxiter + 1) 1
        false (initState cfg xinit)).1 - 1 := by
    rw [hexec]
    rfl
  rw [hiter]
  have hgoal : t.length =
      (runLoop (monotoneBody cfg) cfg.miniter cfg.maxiter (cfg.maxiter + 1) 1
        false (initState cfg xinit)).1 - 1 := by
    rcases ht with h | h | h
    · rw [hexec] at h
      simp only [assembleOutput] at h
      by_cases hf : cfg.saveobjective = true
      · rw [if_pos hf] at h
        have := (Option.some.injEq _ _).mp h
        rw [← this, List.length_take, hl1]
        omega
      · rw [if_neg hf] at h
        exact absurd h (by simp)
    · rw [hexec] at h
      simp only [assembleOutput] at h
      by_cases hf : cfg.savecputime = true
      · rw [if_pos hf] at h
        have := (Option.some.injEq _ _).mp h
        rw [← this, List.length_take, hl2]
        omega
      · rw [if_neg hf] at h
        exact absurd h (by simp)
    · rw [hexec] at h
      simp only [assembleOutput] at h
      by_cases hf : cfg.savereconerror = true
      · rw [if_pos hf] at h
        have := (Option.some.injEq _ _).mp h
        rw [← this, List.length_take, hl3]
        omega
      · rw [if_neg hf] at h
        exact absurd h (by simp)
  exact ⟨hgoal, by omega⟩

/-- C4 (witness): the concrete run `c4cfg` (identity operator, `y = [1]`,
`tau = 0`, `miniter = 1`, `maxiter = 2`, criterion 1, all traces enabled)
performs 2 iterations and returns an objective trace of length 2 — not 3. -/
theorem C4_trace_truncation_witness :
    ([(0 : ℚ), 0]).length = (SPIRALTAPexec c4cfg [1]).iterations ∧
    ([(0 : ℚ), 0]).length ≠ (SPIRALTAPexec c4cfg [1]).iterations + 1 :=
  C4_trace_truncation c4cfg [1] (by norm_num [c4cfg]) (by norm_num [c4cfg])
    (by norm_num [c4cfg]) [0, 0]
    (Or.inl (by norm_num [SPIRALTAPexec, assembleOutput, runLoop, monotoneBody,
      mkBTCtx, initState, c4cfg, backtrack, btAccepts, btCandidate, acceptTest,
      canonicalSub, computeobjective, computegrad, sumsq, vsum, vsub,
      maxpastobjective, pastWindow, npListMax, List.range', bbNextAlpha,
      bbGamma, bbScaledAdx, checkconvergence, List.replicate, List.set,
      Except.toOption]))
